import Mathlib

/-
  Verification development for the simprof code profiler.

  Shallow embedding of the canonical sources:
    - lib/profiler-block.js  (ProfilerBlock: end, updateStats)
    - lib/simple-profiler.js (Profiler: constructor, begin, end, getBlock,
      addBlock, removeBlock, wrap, emitBegin/emitEnd/emitWarning)

  Modelling conventions:
    - JS numbers (durations, sums) are modelled as exact rationals; the
      standard deviation, which the source computes with Math.sqrt, lives in
      the reals via Real.sqrt, so the few definitions touching it are
      noncomputable.
    - The source caches avg and std in the stats object but recomputes both
      from count/sum/sumSq on every updateStats call, so here they are
      derived functions of the folded state (observationally identical).
    - JS object property tables (activeBlocksById, activeBlocksByName,
      stats maps, the global registry) are modelled as association lists
      with overwrite-on-set and delete semantics.
    - The ten-slot ring buffers for events/warnings are modelled as
      unbounded append-only logs: the claims under study only concern which
      entries are emitted, never capacity eviction.
    - The event-emitter wiring installed by Profiler#addBlock (the end and
      warning listeners) is modelled by the `listened` flag on a block:
      blocks created by begin carry it, the disabled placeholder does not.
-/

namespace Simprof

/-! ## Association list helpers (JS object property tables) -/

def aget {α β : Type} [DecidableEq α] : List (α × β) → α → Option β
  | [], _ => none
  | (k, v) :: t, k2 => if k = k2 then some v else aget t k2

def adel {α β : Type} [DecidableEq α] : List (α × β) → α → List (α × β)
  | [], _ => []
  | (k, v) :: t, k2 => if k = k2 then adel t k2 else (k, v) :: adel t k2

def aset {α β : Type} [DecidableEq α] (l : List (α × β)) (k : α) (v : β) :
    List (α × β) :=
  (k, v) :: adel l k

theorem aget_aset_self {α β : Type} [DecidableEq α] (l : List (α × β)) (k : α) (v : β) :
    aget (aset l k v) k = some v := by
  simp [aget, aset]

theorem aget_adel_self {α β : Type} [DecidableEq α] (l : List (α × β)) (k : α) :
    aget (adel l k) k = none := by
  induction l with
  | nil => rfl
  | cons p t ih =>
    obtain ⟨k1, v1⟩ := p
    by_cases h : k1 = k
    · simpa [adel, h] using ih
    · simpa [adel, aget, h] using ih

theorem aget_adel_ne {α β : Type} [DecidableEq α] (l : List (α × β)) (k k2 : α)
    (h : k2 ≠ k) : aget (adel l k) k2 = aget l k2 := by
  induction l with
  | nil => rfl
  | cons p t ih =>
    obtain ⟨k1, v1⟩ := p
    by_cases h1 : k1 = k
    · subst h1
      have e1 : adel ((k1, v1) :: t) k1 = adel t k1 := by simp [adel]
      have e2 : aget ((k1, v1) :: t) k2 = aget t k2 := by
        simp only [aget]
        exact if_neg (fun hh : k1 = k2 => h hh.symm)
      rw [e1, ih, e2]
    · have e1 : adel ((k1, v1) :: t) k = (k1, v1) :: adel t k := by
        simp [adel, h1]
      rw [e1]
      simp only [aget]
      rw [ih]

theorem aget_aset_ne {α β : Type} [DecidableEq α] (l : List (α × β)) (k k2 : α)
    (v : β) (h : k2 ≠ k) : aget (aset l k v) k2 = aget l k2 := by
  simp only [aset, aget]
  rw [if_neg (fun hk => h hk.symm), aget_adel_ne l k k2 h]

/-! ## StatsAggregate

Embeds the stats object maintained by ProfilerBlock#updateStats.
The source initialises it with `_.defaults(stats, { count: 0, sum: 0,
sumSq: 0, avg: 0, std: 0, min: Infinity, max: -Infinity })`; `avg` and
`std` are recomputed from the other fields on every update, so they are
modelled as the derived functions `avgQ` and `stdR` below.  The `isHidden`
flag mirrors the marker placed on the DISABLED aggregate by the Profiler
constructor. -/

structure Stats where
  isHidden : Bool
  count : ℕ
  sum : ℚ
  sumSq : ℚ
  min : WithTop ℚ
  max : WithBot ℚ
deriving DecidableEq

/-- The defaulted stats object: count 0, sum 0, sumSq 0, min Infinity,
max -Infinity (`hidden` is the isHidden marker). -/
def freshStats (hidden : Bool) : Stats :=
  ⟨hidden, 0, 0, 0, ⊤, ⊥⟩

/-- ProfilerBlock#updateStats: fold one duration sample into the aggregate.
Mirrors `stats.count += 1; stats.sum += duration; stats.sumSq += duration *
duration; if (duration < stats.min) ...; if (duration > stats.max) ...`. -/
def fold (s : Stats) (d : ℚ) : Stats :=
  { s with
    count := s.count + 1
    sum := s.sum + d
    sumSq := s.sumSq + d * d
    min := if (d : WithTop ℚ) < s.min then (d : WithTop ℚ) else s.min
    max := if s.max < (d : WithBot ℚ) then (d : WithBot ℚ) else s.max }

/-- `stats.avg = stats.sum / stats.count` (0/0 = 0 matches the defaulted 0). -/
def avgQ (s : Stats) : ℚ := s.sum / (s.count : ℚ)

/-- The radicand of the standard deviation:
`stats.sumSq / stats.count - stats.avg * stats.avg`. -/
def varQ (s : Stats) : ℚ := s.sumSq / (s.count : ℚ) - avgQ s * avgQ s

/-- `stats.std = Math.sqrt(stats.sumSq / stats.count - stats.avg * stats.avg)`. -/
noncomputable def stdR (s : Stats) : ℝ := Real.sqrt ((varQ s : ℚ) : ℝ)

/-- Folding a whole list of duration samples, oldest first. -/
def runStats (l : List ℚ) (s : Stats) : Stats := l.foldl fold s

/-! ### Aggregate lemmas -/

theorem runStats_count (l : List ℚ) (s : Stats) :
    (runStats l s).count = s.count + l.length := by
  induction l generalizing s with
  | nil => simp [runStats]
  | cons a t ih =>
    show (runStats t (fold s a)).count = _
    rw [ih]
    simp [fold]
    omega

theorem runStats_sum (l : List ℚ) (s : Stats) :
    (runStats l s).sum = s.sum + l.sum := by
  induction l generalizing s with
  | nil => simp [runStats]
  | cons a t ih =>
    show (runStats t (fold s a)).sum = _
    rw [ih]
    simp [fold]
    ring

theorem runStats_sumSq (l : List ℚ) (s : Stats) :
    (runStats l s).sumSq = s.sumSq + (l.map (fun d => d * d)).sum := by
  induction l generalizing s with
  | nil => simp [runStats]
  | cons a t ih =>
    show (runStats t (fold s a)).sumSq = _
    rw [ih]
    simp [fold]
    ring

theorem ite_lt_eq_min {α : Type} [LinearOrder α] (a b : α) :
    (if a < b then a else b) = Min.min a b := by
  rcases lt_or_ge a b with h | h
  · rw [if_pos h, min_eq_left (le_of_lt h)]
  · rw [if_neg (not_lt_of_ge h), min_eq_right h]

theorem ite_gt_eq_max {α : Type} [LinearOrder α] (a b : α) :
    (if b < a then a else b) = Max.max a b := by
  rcases lt_or_ge b a with h | h
  · rw [if_pos h, max_eq_left (le_of_lt h)]
  · rw [if_neg (not_lt_of_ge h), max_eq_right h]

theorem runStats_min (l : List ℚ) (s : Stats) :
    (runStats l s).min = Min.min s.min l.minimum := by
  induction l generalizing s with
  | nil => simp [runStats]
  | cons a t ih =>
    show (runStats t (fold s a)).min = _
    rw [ih]
    have : (fold s a).min = Min.min (a : WithTop ℚ) s.min := by
      simp only [fold, ite_lt_eq_min]
    rw [this, List.minimum_cons]
    rw [min_comm (a : WithTop ℚ) s.min, min_assoc]

theorem runStats_max (l : List ℚ) (s : Stats) :
    (runStats l s).max = Max.max s.max l.maximum := by
  induction l generalizing s with
  | nil => simp [runStats]
  | cons a t ih =>
    show (runStats t (fold s a)).max = _
    rw [ih]
    have : (fold s a).max = Max.max (a : WithBot ℚ) s.max := by
      simp only [fold, ite_gt_eq_max]
    rw [this, List.maximum_cons]
    rw [max_comm (a : WithBot ℚ) s.max, max_assoc]

theorem map_sq_sum_nonneg (l : List ℚ) : 0 ≤ (l.map (fun d => d * d)).sum := by
  induction l with
  | nil => simp
  | cons a t ih =>
    simp only [List.map_cons, List.sum_cons]
    nlinarith [mul_self_nonneg a]

/-- Cauchy-Schwarz for list sums: the squared sum is at most the length
times the sum of squares. -/
theorem sq_sum_le_len_mul_sumSq (l : List ℚ) :
    l.sum ^ 2 ≤ (l.length : ℚ) * (l.map (fun d => d * d)).sum := by
  induction l with
  | nil => simp
  | cons a t ih =>
    have hQ : 0 ≤ (t.map (fun d => d * d)).sum := map_sq_sum_nonneg t
    rcases Nat.eq_zero_or_pos t.length with h0 | hpos
    · obtain rfl : t = [] := List.length_eq_zero.mp h0
      simp
      nlinarith [mul_self_nonneg a]
    · have hn : (1 : ℚ) ≤ (t.length : ℚ) := by exact_mod_cast hpos
      simp only [List.sum_cons, List.map_cons, List.length_cons]
      push_cast
      set n : ℚ := (t.length : ℚ) with hdefn
      set S : ℚ := t.sum
      set Q : ℚ := (t.map (fun d => d * d)).sum
      have key : n * ((n + 1) * (a * a + Q) - (a + S) ^ 2)
          = (n * a - S) ^ 2 + (1 + n) * (n * Q - S ^ 2) := by ring
      have h1 : (0 : ℚ) ≤ (n * a - S) ^ 2 := sq_nonneg _
      have h2 : (0 : ℚ) ≤ n * Q - S ^ 2 := by nlinarith [ih]
      have h3 : (0 : ℚ) ≤ n * ((n + 1) * (a * a + Q) - (a + S) ^ 2) := by
        rw [key]
        have := mul_nonneg (by linarith : (0 : ℚ) ≤ 1 + n) h2
        linarith
      nlinarith [h3, hn]

/-- The std radicand of a freshly-folded aggregate is never negative in
exact arithmetic. -/
theorem varQ_runStats_nonneg (l : List ℚ) (hidden : Bool) :
    0 ≤ varQ (runStats l (freshStats hidden)) := by
  rcases l with _ | ⟨a, t⟩
  · simp [runStats, varQ, avgQ, freshStats]
  · have hcount : (runStats (a :: t) (freshStats hidden)).count = (a :: t).length := by
      rw [runStats_count]; simp [freshStats]
    have hsum : (runStats (a :: t) (freshStats hidden)).sum = (a :: t).sum := by
      rw [runStats_sum]; simp [freshStats]
    have hsumSq : (runStats (a :: t) (freshStats hidden)).sumSq
        = ((a :: t).map (fun d => d * d)).sum := by
      rw [runStats_sumSq]; simp [freshStats]
    have hcs := sq_sum_le_len_mul_sumSq (a :: t)
    have hnpos : (0 : ℚ) < ((a :: t).length : ℚ) := by
      simp
      positivity
    rw [varQ, avgQ, hcount, hsum, hsumSq]
    rw [div_mul_div_comm, sub_nonneg, div_le_div_iff₀ (by positivity) hnpos]
    calc (a :: t).sum * (a :: t).sum * ((a :: t).length : ℚ)
        = (a :: t).sum ^ 2 * ((a :: t).length : ℚ) := by ring
      _ ≤ ((a :: t).length : ℚ) * ((a :: t).map (fun d => d * d)).sum
            * ((a :: t).length : ℚ) := by
          have := sq_sum_le_len_mul_sumSq (a :: t)
          nlinarith [hnpos]
      _ = ((a :: t).map (fun d => d * d)).sum
            * (((a :: t).length : ℚ) * ((a :: t).length : ℚ)) := by ring

/-! ## ProfilerBlock

A block records `id`, `name`, the optional caller-supplied `warnThreshold`
and `startedOn` (lib/profiler-block.js constructor).  The `listened` flag
models the end/warning listeners that Profiler#addBlock installs on blocks
it registers; the disabled placeholder never passes through addBlock. -/

structure Block where
  id : ℤ
  name : String
  warnThreshold : Option ℚ
  startedOn : ℚ
  listened : Bool
deriving DecidableEq

/-- The LIMIT_EXCEEDED warning message from ProfilerBlock#end. -/
def limitExceededMsg (name : String) : String :=
  "Block " ++ name ++ " took longer than the acceptable threshold."

/-- The effective threshold of ProfilerBlock#end: `let { warnThreshold } =
this; if (typeof warnThreshold !== 'number') warnThreshold = 2 *
this.stats.avg + this.stats.std;`.  The stats argument is the aggregate the
source reads `avg`/`std` from at that point. -/
noncomputable def effThreshold : Option ℚ → Stats → ℝ
  | some w, _ => (w : ℝ)
  | none, s => 2 * ((avgQ s : ℚ) : ℝ) + stdR s

/-- Result of one ProfilerBlock#end call: the updated aggregate, the
computed duration, the warning events emitted, and the number of end
events emitted on the block (always one per call). -/
structure EndResult where
  stats : Stats
  duration : ℚ
  warnings : List String
  endEmits : ℕ

open Classical in
/-- ProfilerBlock#end: computes `duration = endedOn - startedOn`, calls
updateStats (folding the sample), then evaluates the warning policy
against the stats object as updated (`this.stats.count >= 100 &&
this.duration > warnThreshold`), and emits `end`. -/
noncomputable def blockEndCore (b : Block) (s : Stats) (endedOn : ℚ) : EndResult :=
  let d := endedOn - b.startedOn
  let s2 := fold s d
  ⟨s2, d,
    if 100 ≤ s2.count ∧ (d : ℝ) > effThreshold b.warnThreshold s2 then
      [limitExceededMsg b.name]
    else [], 1⟩

/-! ## Profiler (namespace) state

Mirrors the instance fields set up by the Profiler constructor, plus the
process-wide enabled flag that `Profiler.isEnabled()` reads. -/

structure NsState where
  enabled : Bool
  idCounter : ℕ
  activeById : List (ℤ × Block)
  activeByName : List (String × Block)
  stats : List (String × Stats)
  events : List String
  warnings : List String
  disabledBlock : Block

/-- Event line recorded by Profiler#emitBegin. -/
def beginMsg (name : String) : String := "begin " ++ name

/-- Event line recorded by Profiler#emitEnd. -/
def endMsg (name : String) : String := "end " ++ name

/-- A freshly constructed Profiler: empty indices, idCounter 0, the hidden
DISABLED aggregate installed, and the inert placeholder block with id -1
built against it (lib/simple-profiler.js constructor, lines 24-45). -/
def mkProfiler (enabled : Bool) (constructedOn : ℚ) : NsState :=
  { enabled := enabled
    idCounter := 0
    activeById := []
    activeByName := []
    stats := aset [] "DISABLED" (freshStats true)
    events := []
    warnings := []
    disabledBlock := ⟨-1, "DISABLED", none, constructedOn, false⟩ }

/-- Profiler#begin: when disabled returns the singleton placeholder;
otherwise allocates `id = ++this.idCounter`, reuses or creates the stats
object for the name, constructs the block, registers it in both active
indices (addBlock, last write wins) and records a begin event. -/
def nsBegin (st : NsState) (name : String) (wt : Option ℚ) (now : ℚ) :
    NsState × Block :=
  if st.enabled = false then (st, st.disabledBlock)
  else
    let id : ℤ := (st.idCounter : ℤ) + 1
    let s := (aget st.stats name).getD (freshStats false)
    let b : Block := ⟨id, name, wt, now, true⟩
    ({ st with
        idCounter := st.idCounter + 1
        stats := aset st.stats name s
        activeById := aset st.activeById id b
        activeByName := aset st.activeByName name b
        events := st.events ++ [beginMsg name] }, b)

/-- A reference accepted by Profiler#getBlock / Profiler#end: a numeric id,
a string name, a block object, or a value of any other type. -/
inductive BlockRef where
  | byId (i : ℤ)
  | byName (s : String)
  | direct (b : Block)
  | malformed

/-- Profiler#getBlock: numbers resolve through activeBlocksById, strings
through activeBlocksByName, block instances pass through; anything that
fails to resolve to a ProfilerBlock instance throws INTERNAL_ERROR. -/
def getBlock (st : NsState) : BlockRef → Except Unit Block
  | .byId i =>
    match aget st.activeById i with
    | some b => .ok b
    | none => .error ()
  | .byName s =>
    match aget st.activeByName s with
    | some b => .ok b
    | none => .error ()
  | .direct b => .ok b
  | .malformed => .error ()

/-- Calling `block.end()` against a profiler: the block folds its duration
into the shared aggregate for its name; if the addBlock listeners are
attached, the warning events are recorded, the block is deregistered from
both indices (removeBlock deletes `byId[id]` and `byName[name]`
unconditionally) and an end event is recorded. -/
noncomputable def blockEndDirect (st : NsState) (b : Block) (now : ℚ) :
    NsState × Stats :=
  let s := (aget st.stats b.name).getD (freshStats false)
  let r := blockEndCore b s now
  if b.listened then
    ({ st with
        stats := aset st.stats b.name r.stats
        activeById := adel st.activeById b.id
        activeByName := adel st.activeByName b.name
        warnings := st.warnings ++ r.warnings
        events := st.events ++ [endMsg b.name] }, r.stats)
  else
    ({ st with stats := aset st.stats b.name r.stats }, r.stats)

/-- Profiler#end: returns undefined when disabled, otherwise resolves the
reference through getBlock (propagating its error) and ends the block. -/
noncomputable def nsEnd (st : NsState) (ref : BlockRef) (now : ℚ) :
    Except Unit (NsState × Option Stats) :=
  if st.enabled = false then .ok (st, none)
  else
    match getBlock st ref with
    | .error e => .error e
    | .ok b =>
      let p := blockEndDirect st b now
      .ok (p.1, some p.2)

/-! ## Profiler#wrap on a callable -/

/-- Behaviour of one invocation of the callable passed to wrap: it may
throw synchronously, return a plain (non-thenable) value, or return a
future that eventually settles with a success or a failure. -/
inductive CallBehavior (ε β : Type) where
  | throws (e : ε)
  | returns (v : β)
  | future (r : Except ε β)

/-- The outcome the caller of the wrapped function ultimately observes. -/
def callOutcome {ε β : Type} : CallBehavior ε β → Except ε β
  | .throws e => .error e
  | .returns v => .ok v
  | .future r => r

/-- One invocation of the function returned by Profiler#wrap (source lines
260-272): when disabled the callable runs unprofiled; otherwise a block is
begun, the callable is invoked, and `block.end()` runs after a plain
return, or on fulfilment of a returned future (`output.then(() =>
block.end())`).  A synchronous throw propagates before `block.end()` is
reached, and a rejected future never runs the fulfilment handler.  The
third component counts the `block.end()` calls made for the begun block. -/
noncomputable def wrapInvoke {ε β : Type} (st : NsState) (cb : CallBehavior ε β)
    (name : String) (wt : Option ℚ) (tBegin tEnd : ℚ) :
    NsState × Except ε β × ℕ :=
  if st.enabled = false then (st, callOutcome cb, 0)
  else
    let p := nsBegin st name wt tBegin
    match cb with
    | .throws e => (p.1, .error e, 0)
    | .returns v => ((blockEndDirect p.1 p.2 tEnd).1, .ok v, 1)
    | .future (.ok v) => ((blockEndDirect p.1 p.2 tEnd).1, .ok v, 1)
    | .future (.error e) => (p.1, .error e, 0)

/-! ## Registry (namespace deduplication) -/

/-- The process-wide registry `global.simpleProfiler`: namespace name to
instance, plus a counter providing identities for constructed instances. -/
structure Registry where
  instances : List (String × ℕ)
  nextInst : ℕ

/-- The Profiler constructor (lines 24-45): always builds a fresh candidate
instance (initialising its fields and resetting the static tables for the
namespace), then returns the already-registered instance if one exists,
else registers the candidate.  The third component is the list of warning
events the construction emits through the returned instance: the canonical
constructor emits none. -/
def profilerConstruct (reg : Registry) (ns : String) : Registry × ℕ × List String :=
  let cand := reg.nextInst
  match aget reg.instances ns with
  | some inst => ({ reg with nextInst := cand + 1 }, inst, [])
  | none =>
    ({ instances := aset reg.instances ns cand, nextInst := cand + 1 }, cand, [])

/-! ## Spec-modelled pre-fold warning policy (for claim C2)

The spec asserts the dynamic threshold is computed from the aggregate
state prior to folding the current sample.  This definition follows the
spec's words; the source (blockEndCore) computes it after updateStats. -/

/-- Follows the spec's words: a block ended without a caller-supplied
threshold warns when the post-fold count has reached 100 and the duration
strictly exceeds `2*avg + std` of the aggregate state before this sample
is folded in. -/
noncomputable def specPreFoldWarns (b : Block) (s : Stats) (endedOn : ℚ) : Prop :=
  let d := endedOn - b.startedOn
  100 ≤ (fold s d).count ∧ (d : ℝ) > effThreshold b.warnThreshold s

/-! ## Projections of a namespace-level end (for stating theorems) -/

/-- The profiler state after Profiler#end (unchanged when it throws). -/
noncomputable def nsEndState (st : NsState) (ref : BlockRef) (now : ℚ) : NsState :=
  match nsEnd st ref now with
  | .ok p => p.1
  | .error _ => st

/-- The aggregate returned by Profiler#end (none when disabled or thrown). -/
noncomputable def nsEndStats (st : NsState) (ref : BlockRef) (now : ℚ) : Option Stats :=
  match nsEnd st ref now with
  | .ok p => p.2
  | .error _ => none

/-! ## Helper lemmas about block end and begin -/

theorem blockEndCore_stats (b : Block) (s : Stats) (endedOn : ℚ) :
    (blockEndCore b s endedOn).stats = fold s (endedOn - b.startedOn) := rfl

theorem blockEndCore_duration (b : Block) (s : Stats) (endedOn : ℚ) :
    (blockEndCore b s endedOn).duration = endedOn - b.startedOn := rfl

theorem blockEndCore_endEmits (b : Block) (s : Stats) (endedOn : ℚ) :
    (blockEndCore b s endedOn).endEmits = 1 := rfl

theorem blockEndCore_warns_iff (b : Block) (s : Stats) (endedOn : ℚ) :
    (blockEndCore b s endedOn).warnings ≠ []
      ↔ (100 ≤ (fold s (endedOn - b.startedOn)).count
          ∧ ((endedOn - b.startedOn : ℚ) : ℝ)
              > effThreshold b.warnThreshold (fold s (endedOn - b.startedOn))) := by
  show (if _ ∧ _ then [limitExceededMsg b.name] else []) ≠ [] ↔ _
  by_cases hc : (100 ≤ (fold s (endedOn - b.startedOn)).count
      ∧ ((endedOn - b.startedOn : ℚ) : ℝ)
          > effThreshold b.warnThreshold (fold s (endedOn - b.startedOn)))
  · rw [if_pos hc]
    exact iff_of_true (by simp) hc
  · rw [if_neg hc]
    exact iff_of_false (by simp) hc

theorem blockEndCore_warnings_nil (b : Block) (s : Stats) (endedOn : ℚ)
    (h : (fold s (endedOn - b.startedOn)).count < 100) :
    (blockEndCore b s endedOn).warnings = [] := by
  show (if _ ∧ _ then [limitExceededMsg b.name] else []) = []
  rw [if_neg]
  rintro ⟨h1, -⟩
  omega

theorem blockEndCore_warnings_single (b : Block) (s : Stats) (endedOn : ℚ)
    (h1 : 100 ≤ (fold s (endedOn - b.startedOn)).count)
    (h2 : ((endedOn - b.startedOn : ℚ) : ℝ)
        > effThreshold b.warnThreshold (fold s (endedOn - b.startedOn))) :
    (blockEndCore b s endedOn).warnings = [limitExceededMsg b.name] := by
  show (if _ ∧ _ then [limitExceededMsg b.name] else []) = _
  rw [if_pos ⟨h1, h2⟩]

theorem nsBegin_disabled (st : NsState) (name : String) (wt : Option ℚ) (now : ℚ)
    (h : st.enabled = false) : nsBegin st name wt now = (st, st.disabledBlock) := by
  simp [nsBegin, h]

theorem nsBegin_enabled (st : NsState) (name : String) (wt : Option ℚ) (now : ℚ)
    (h : st.enabled = true) :
    nsBegin st name wt now =
      ({ st with
          idCounter := st.idCounter + 1
          stats := aset st.stats name ((aget st.stats name).getD (freshStats false))
          activeById := aset st.activeById ((st.idCounter : ℤ) + 1)
            ⟨(st.idCounter : ℤ) + 1, name, wt, now, true⟩
          activeByName := aset st.activeByName name
            ⟨(st.idCounter : ℤ) + 1, name, wt, now, true⟩
          events := st.events ++ [beginMsg name] },
        ⟨(st.idCounter : ℤ) + 1, name, wt, now, true⟩) := by
  simp [nsBegin, h]

theorem blockEndDirect_listened (st : NsState) (b : Block) (now : ℚ)
    (h : b.listened = true) :
    blockEndDirect st b now =
      ({ st with
          stats := aset st.stats b.name
            (blockEndCore b ((aget st.stats b.name).getD (freshStats false)) now).stats
          activeById := adel st.activeById b.id
          activeByName := adel st.activeByName b.name
          warnings := st.warnings
            ++ (blockEndCore b ((aget st.stats b.name).getD (freshStats false)) now).warnings
          events := st.events ++ [endMsg b.name] },
        (blockEndCore b ((aget st.stats b.name).getD (freshStats false)) now).stats) := by
  rw [blockEndDirect]
  simp [h]

theorem blockEndDirect_unlistened (st : NsState) (b : Block) (now : ℚ)
    (h : b.listened = false) :
    blockEndDirect st b now =
      ({ st with
          stats := aset st.stats b.name
            (blockEndCore b ((aget st.stats b.name).getD (freshStats false)) now).stats },
        (blockEndCore b ((aget st.stats b.name).getD (freshStats false)) now).stats) := by
  rw [blockEndDirect]
  simp [h]

theorem nsEnd_disabled (st : NsState) (ref : BlockRef) (now : ℚ)
    (h : st.enabled = false) : nsEnd st ref now = .ok (st, none) := by
  simp [nsEnd, h]

theorem nsEnd_resolved (st : NsState) (ref : BlockRef) (now : ℚ) (b : Block)
    (h : st.enabled = true) (hb : getBlock st ref = .ok b) :
    nsEnd st ref now
      = .ok ((blockEndDirect st b now).1, some (blockEndDirect st b now).2) := by
  simp [nsEnd, h, hb]

theorem nsEnd_unresolved (st : NsState) (ref : BlockRef) (now : ℚ)
    (h : st.enabled = true) (hb : getBlock st ref = .error ()) :
    nsEnd st ref now = .error () := by
  simp [nsEnd, h, hb]

/-- Field-level description of an enabled Profiler#begin: the returned
block and how each instance field changes. -/
theorem nsBegin_spec (st st1 : NsState) (b : Block) (x : String) (wt : Option ℚ)
    (t : ℚ) (hen : st.enabled = true) (h : nsBegin st x wt t = (st1, b)) :
    b = ⟨(st.idCounter : ℤ) + 1, x, wt, t, true⟩
    ∧ st1.enabled = st.enabled
    ∧ st1.idCounter = st.idCounter + 1
    ∧ st1.activeById = aset st.activeById b.id b
    ∧ st1.activeByName = aset st.activeByName x b
    ∧ st1.stats = aset st.stats x ((aget st.stats x).getD (freshStats false))
    ∧ st1.events = st.events ++ [beginMsg x]
    ∧ st1.warnings = st.warnings
    ∧ st1.disabledBlock = st.disabledBlock := by
  rw [nsBegin_enabled st x wt t hen] at h
  injection h with ha hb
  subst ha
  subst hb
  exact ⟨rfl, rfl, rfl, rfl, rfl, rfl, rfl, rfl, rfl⟩

/-! ## Claim theorems -/

/-- Claim C4: after folding n completed durations into a fresh aggregate,
count equals n, min/max equal the true minimum/maximum (with the infinity
sentinels for n = 0), avg equals the arithmetic mean, the std radicand
`sumSq/count - avg^2` is non-negative in exact arithmetic, and the
standard deviation is non-negative. -/
theorem c4_aggregate_stats_correct (ds : List ℚ) (_hnn : ∀ d ∈ ds, 0 ≤ d) :
    (runStats ds (freshStats false)).count = ds.length
    ∧ (runStats ds (freshStats false)).min = ds.minimum
    ∧ (runStats ds (freshStats false)).max = ds.maximum
    ∧ avgQ (runStats ds (freshStats false)) = ds.sum / (ds.length : ℚ)
    ∧ 0 ≤ varQ (runStats ds (freshStats false))
    ∧ 0 ≤ stdR (runStats ds (freshStats false)) := by
  refine ⟨?_, ?_, ?_, ?_, varQ_runStats_nonneg ds false, Real.sqrt_nonneg _⟩
  · rw [runStats_count]
    simp [freshStats]
  · rw [runStats_min, show (freshStats false).min = ⊤ from rfl]
    exact min_eq_right le_top
  · rw [runStats_max, show (freshStats false).max = ⊥ from rfl]
    exact max_eq_right bot_le
  · rw [avgQ, runStats_sum, runStats_count]
    simp [freshStats]

/-- Witness for C4 at the concrete sample list [1, 2, 3]. -/
theorem c4_witness :
    (∀ d ∈ ([1, 2, 3] : List ℚ), 0 ≤ d)
    ∧ ((runStats [1, 2, 3] (freshStats false)).count = ([1, 2, 3] : List ℚ).length
      ∧ (runStats [1, 2, 3] (freshStats false)).min = ([1, 2, 3] : List ℚ).minimum
      ∧ (runStats [1, 2, 3] (freshStats false)).max = ([1, 2, 3] : List ℚ).maximum
      ∧ avgQ (runStats [1, 2, 3] (freshStats false))
          = ([1, 2, 3] : List ℚ).sum / (([1, 2, 3] : List ℚ).length : ℚ)
      ∧ 0 ≤ varQ (runStats [1, 2, 3] (freshStats false))
      ∧ 0 ≤ stdR (runStats [1, 2, 3] (freshStats false))) :=
  ⟨by decide, c4_aggregate_stats_correct [1, 2, 3] (by decide)⟩

/-- Claim C9: ending an already-ended block is not a no-op: every end()
call recomputes the duration from the new endedOn, folds one more sample
into the shared aggregate (count grows once per call, not per block) and
emits another end event. -/
theorem c9_end_not_idempotent (b : Block) (s : Stats) (t1 t2 : ℚ) :
    (blockEndCore b s t1).stats.count = s.count + 1
    ∧ (blockEndCore b (blockEndCore b s t1).stats t2).stats.count = s.count + 2
    ∧ (blockEndCore b (blockEndCore b s t1).stats t2).stats.sum
        = s.sum + (t1 - b.startedOn) + (t2 - b.startedOn)
    ∧ (blockEndCore b s t1).duration = t1 - b.startedOn
    ∧ (blockEndCore b (blockEndCore b s t1).stats t2).duration = t2 - b.startedOn
    ∧ (blockEndCore b s t1).endEmits = 1
    ∧ (blockEndCore b (blockEndCore b s t1).stats t2).endEmits = 1 := by
  refine ⟨rfl, ?_, ?_, rfl, rfl, rfl, rfl⟩
  · simp only [blockEndCore_stats, fold]
  · simp only [blockEndCore_stats, fold]

/-- Claim C2 counterexample: a block ended with no caller-supplied
threshold, against an aggregate holding 100 samples of duration 1, with
this duration 2.1.  The spec's pre-fold threshold is 2*1 + 0 = 2, so the
spec predicts a warning (2.1 > 2); the source computes the threshold from
the post-fold aggregate (about 2.1307) and emits none. -/
theorem c2_counterexample :
    specPreFoldWarns ⟨1, "foo", none, 0, true⟩
        ⟨false, 100, 100, 100, ((1 : ℚ) : WithTop ℚ), ((1 : ℚ) : WithBot ℚ)⟩ (21/10)
    ∧ (blockEndCore ⟨1, "foo", none, 0, true⟩
        ⟨false, 100, 100, 100, ((1 : ℚ) : WithTop ℚ), ((1 : ℚ) : WithBot ℚ)⟩
        (21/10)).warnings = [] := by
  constructor
  · simp only [specPreFoldWarns]
    constructor
    · simp [fold]
    · have havg : avgQ ⟨false, 100, 100, 100, ((1 : ℚ) : WithTop ℚ),
          ((1 : ℚ) : WithBot ℚ)⟩ = 1 := by
        norm_num [avgQ]
      have hvar : varQ ⟨false, 100, 100, 100, ((1 : ℚ) : WithTop ℚ),
          ((1 : ℚ) : WithBot ℚ)⟩ = 0 := by
        norm_num [varQ, avgQ]
      have hstd : stdR ⟨false, 100, 100, 100, ((1 : ℚ) : WithTop ℚ),
          ((1 : ℚ) : WithBot ℚ)⟩ = 0 := by
        rw [stdR, hvar]
        simp
      show ((21/10 - (0:ℚ) : ℚ) : ℝ) > effThreshold none _
      rw [effThreshold, havg, hstd]
      norm_num
  · have hiff := blockEndCore_warns_iff ⟨1, "foo", none, 0, true⟩
        ⟨false, 100, 100, 100, ((1 : ℚ) : WithTop ℚ), ((1 : ℚ) : WithBot ℚ)⟩ (21/10)
    refine not_not.mp (fun hne => ?_)
    rcases hiff.mp hne with ⟨-, h2⟩
    have havg : avgQ (fold ⟨false, 100, 100, 100, ((1 : ℚ) : WithTop ℚ),
        ((1 : ℚ) : WithBot ℚ)⟩ (21/10 - (0:ℚ))) = 1021/1010 := by
      norm_num [fold, avgQ]
    have hvar : varQ (fold ⟨false, 100, 100, 100, ((1 : ℚ) : WithTop ℚ),
        ((1 : ℚ) : WithBot ℚ)⟩ (21/10 - (0:ℚ))) = 121/10201 := by
      norm_num [fold, varQ, avgQ]
    have hstd : stdR (fold ⟨false, 100, 100, 100, ((1 : ℚ) : WithTop ℚ),
        ((1 : ℚ) : WithBot ℚ)⟩ (21/10 - (0:ℚ))) = 11/101 := by
      rw [stdR, hvar]
      rw [show (((121/10201 : ℚ)) : ℝ) = ((11/101 : ℝ)) ^ 2 by norm_num]
      exact Real.sqrt_sq (by norm_num)
    rw [show (⟨1, "foo", none, 0, true⟩ : Block).warnThreshold = none from rfl,
        effThreshold, havg, hstd] at h2
    norm_num at h2

/-- Claim C2 as amended: for a block ended without a caller-supplied
warnThreshold, the effective threshold compared against the duration is
`2*avg + std` computed from the aggregate state after this sample has been
folded in (updateStats runs before the threshold is read), and the sample
is folded regardless. -/
theorem c2_amended_postfold_threshold (b : Block) (s : Stats) (endedOn : ℚ)
    (hwt : b.warnThreshold = none) :
    ((blockEndCore b s endedOn).warnings ≠ []
      ↔ (100 ≤ (fold s (endedOn - b.startedOn)).count
          ∧ ((endedOn - b.startedOn : ℚ) : ℝ)
              > 2 * ((avgQ (fold s (endedOn - b.startedOn)) : ℚ) : ℝ)
                + stdR (fold s (endedOn - b.startedOn))))
    ∧ (blockEndCore b s endedOn).stats = fold s (endedOn - b.startedOn) := by
  have hiff := blockEndCore_warns_iff b s endedOn
  rw [hwt] at hiff
  exact ⟨hiff, blockEndCore_stats b s endedOn⟩

/-- Witness for C2's amended theorem at a concrete block and aggregate. -/
theorem c2_witness :
    (⟨1, "w", none, 0, true⟩ : Block).warnThreshold = none
    ∧ (((blockEndCore ⟨1, "w", none, 0, true⟩ (freshStats false) 0).warnings ≠ []
        ↔ (100 ≤ (fold (freshStats false)
              (0 - (⟨1, "w", none, 0, true⟩ : Block).startedOn)).count
            ∧ ((0 - (⟨1, "w", none, 0, true⟩ : Block).startedOn : ℚ) : ℝ)
                > 2 * ((avgQ (fold (freshStats false)
                      (0 - (⟨1, "w", none, 0, true⟩ : Block).startedOn)) : ℚ) : ℝ)
                  + stdR (fold (freshStats false)
                      (0 - (⟨1, "w", none, 0, true⟩ : Block).startedOn))))
      ∧ (blockEndCore ⟨1, "w", none, 0, true⟩ (freshStats false) 0).stats
          = fold (freshStats false)
              (0 - (⟨1, "w", none, 0, true⟩ : Block).startedOn)) :=
  ⟨rfl, c2_amended_postfold_threshold ⟨1, "w", none, 0, true⟩ (freshStats false) 0 rfl⟩

/-- Claim C5: a LimitExceeded warning is emitted at a block's end iff the
post-fold count has reached 100 and the duration strictly exceeds the
effective threshold; in a run of 99 begin/end pairs of one name followed
by a 100th whose duration exceeds the threshold, none of the first 99
ends emits a warning and the 100th end emits exactly one. -/
theorem c5_limit_exceeded_policy (x : String) (wt : Option ℚ) (ds : List ℚ)
    (dLast : ℚ) (h99 : ds.length = 99)
    (hover : (dLast : ℝ)
        > effThreshold wt (fold (runStats ds (freshStats false)) dLast)) :
    (∀ i : ℕ, i < 99 →
      (blockEndCore ⟨(i : ℤ) + 1, x, wt, 0, true⟩
        (runStats (ds.take i) (freshStats false)) (ds.getD i 0)).warnings = [])
    ∧ (blockEndCore ⟨100, x, wt, 0, true⟩
        (runStats ds (freshStats false)) dLast).warnings = [limitExceededMsg x]
    ∧ (∀ (b : Block) (s : Stats) (endedOn : ℚ),
        (blockEndCore b s endedOn).warnings ≠ []
          ↔ (100 ≤ (fold s (endedOn - b.startedOn)).count
              ∧ ((endedOn - b.startedOn : ℚ) : ℝ)
                  > effThreshold b.warnThreshold
                      (fold s (endedOn - b.startedOn)))) := by
  refine ⟨?_, ?_, blockEndCore_warns_iff⟩
  · intro i hi
    apply blockEndCore_warnings_nil
    have h1 : (ds.take i).length = i := by
      rw [List.length_take]
      omega
    simp only [fold, runStats_count, h1, freshStats]
    omega
  · apply blockEndCore_warnings_single
    · simp [fold, runStats_count, freshStats, h99]
    · simpa using hover

/-- Witness for C5: threshold 5 supplied, 99 instant iterations then a
duration of 10. -/
theorem c5_witness :
    (List.replicate 99 (0 : ℚ)).length = 99
    ∧ ((10 : ℚ) : ℝ) > effThreshold (some 5)
        (fold (runStats (List.replicate 99 (0 : ℚ)) (freshStats false)) 10)
    ∧ ((∀ i : ℕ, i < 99 →
        (blockEndCore ⟨(i : ℤ) + 1, "x", some 5, 0, true⟩
          (runStats ((List.replicate 99 (0 : ℚ)).take i) (freshStats false))
          ((List.replicate 99 (0 : ℚ)).getD i 0)).warnings = [])
      ∧ (blockEndCore ⟨100, "x", some 5, 0, true⟩
          (runStats (List.replicate 99 (0 : ℚ)) (freshStats false)) 10).warnings
            = [limitExceededMsg "x"]
      ∧ (∀ (b : Block) (s : Stats) (endedOn : ℚ),
          (blockEndCore b s endedOn).warnings ≠ []
            ↔ (100 ≤ (fold s (endedOn - b.startedOn)).count
                ∧ ((endedOn - b.startedOn : ℚ) : ℝ)
                    > effThreshold b.warnThreshold
                        (fold s (endedOn - b.startedOn))))) :=
  ⟨by simp,
   by rw [effThreshold]; norm_num,
   c5_limit_exceeded_policy "x" (some 5) (List.replicate 99 (0 : ℚ)) 10
     (by simp) (by rw [effThreshold]; norm_num)⟩

/-- Claim C3 counterexample: on a freshly constructed disabled profiler,
begin does return the singleton placeholder, but calling end() on the
placeholder is not free of stats mutation: it folds a sample into the
hidden DISABLED aggregate, whose count rises from 0 to 1 (the claim says
no stats mutation occurs). -/
theorem c3_counterexample :
    nsBegin (mkProfiler false 0) "foo" none 1
      = (mkProfiler false 0, (mkProfiler false 0).disabledBlock)
    ∧ (blockEndDirect (mkProfiler false 0)
        (mkProfiler false 0).disabledBlock 2).2.count = 1 := by
  constructor
  · exact nsBegin_disabled _ _ _ _ rfl
  · rw [blockEndDirect_unlistened _ _ _ rfl, blockEndCore_stats]
    rfl

/-- Claim C3 as amended: with the registry disabled, begin returns the
namespace's singleton placeholder (never null) and changes nothing,
namespace-level end is a silent no-op, and ending the placeholder touches
neither the active indices nor the recorded events and warnings — but it
does fold one sample into the hidden DISABLED aggregate, so end() on the
placeholder is not free of stats mutation. -/
theorem c3_disabled_placeholder (st : NsState) (name : String) (wt : Option ℚ)
    (now t t2 : ℚ) (ref : BlockRef) (hdis : st.enabled = false)
    (hlis : st.disabledBlock.listened = false) :
    nsBegin st name wt now = (st, st.disabledBlock)
    ∧ nsEnd st ref t = .ok (st, none)
    ∧ (blockEndDirect st st.disabledBlock t2).1.events = st.events
    ∧ (blockEndDirect st st.disabledBlock t2).1.warnings = st.warnings
    ∧ (blockEndDirect st st.disabledBlock t2).1.activeById = st.activeById
    ∧ (blockEndDirect st st.disabledBlock t2).1.activeByName = st.activeByName
    ∧ (blockEndDirect st st.disabledBlock t2).2.count
        = ((aget st.stats st.disabledBlock.name).getD (freshStats false)).count + 1 := by
  rw [blockEndDirect_unlistened st st.disabledBlock t2 hlis]
  refine ⟨nsBegin_disabled st name wt now hdis, nsEnd_disabled st ref t hdis,
    rfl, rfl, rfl, rfl, ?_⟩
  rw [blockEndCore_stats]
  rfl

/-- Witness for C3's amended theorem on a fresh disabled profiler. -/
theorem c3_witness :
    (mkProfiler false 0).enabled = false
    ∧ (mkProfiler false 0).disabledBlock.listened = false
    ∧ (nsBegin (mkProfiler false 0) "foo" none 1
        = (mkProfiler false 0, (mkProfiler false 0).disabledBlock)
      ∧ nsEnd (mkProfiler false 0) (.byName "x") 2 = .ok (mkProfiler false 0, none)
      ∧ (blockEndDirect (mkProfiler false 0)
          (mkProfiler false 0).disabledBlock 3).1.events = (mkProfiler false 0).events
      ∧ (blockEndDirect (mkProfiler false 0)
          (mkProfiler false 0).disabledBlock 3).1.warnings = (mkProfiler false 0).warnings
      ∧ (blockEndDirect (mkProfiler false 0)
          (mkProfiler false 0).disabledBlock 3).1.activeById
          = (mkProfiler false 0).activeById
      ∧ (blockEndDirect (mkProfiler false 0)
          (mkProfiler false 0).disabledBlock 3).1.activeByName
          = (mkProfiler false 0).activeByName
      ∧ (blockEndDirect (mkProfiler false 0)
          (mkProfiler false 0).disabledBlock 3).2.count
          = ((aget (mkProfiler false 0).stats
              (mkProfiler false 0).disabledBlock.name).getD (freshStats false)).count
            + 1) :=
  ⟨rfl, rfl, c3_disabled_placeholder (mkProfiler false 0) "foo" none 1 2 3
    (.byName "x") rfl rfl⟩

/-- Claim C6 counterexample: constructing the namespace "Foo" twice in a
fresh registry returns the same instance both times, but the second
construction emits no warning at all, where the claim requires exactly
one AlreadyExists warning. -/
theorem c6_counterexample :
    (profilerConstruct (profilerConstruct ⟨[], 0⟩ "Foo").1 "Foo").2.1
      = (profilerConstruct ⟨[], 0⟩ "Foo").2.1
    ∧ (profilerConstruct (profilerConstruct ⟨[], 0⟩ "Foo").1 "Foo").2.2 = [] := by
  constructor <;> rfl

/-- Claim C6 as amended: constructing a namespace whose name is already
registered returns the existing instance (both handles are the same
instance, and the registry still maps the name to it), but no
AlreadyExists warning is emitted by the construction. -/
theorem c6_dedup_no_warning (reg : Registry) (ns : String) :
    (profilerConstruct (profilerConstruct reg ns).1 ns).2.1
      = (profilerConstruct reg ns).2.1
    ∧ aget (profilerConstruct (profilerConstruct reg ns).1 ns).1.instances ns
        = some (profilerConstruct reg ns).2.1
    ∧ (profilerConstruct (profilerConstruct reg ns).1 ns).2.2 = [] := by
  cases h : aget reg.instances ns with
  | some inst => simp [profilerConstruct, h]
  | none => simp [profilerConstruct, h, aget_aset_self]

/-- Claim C7 counterexample: with the registry disabled, ending an
unresolvable name silently returns instead of raising the error the claim
demands for every such call. -/
theorem c7_counterexample :
    nsEnd (mkProfiler false 0) (.byName "missing") 1
      = .ok (mkProfiler false 0, none) :=
  nsEnd_disabled _ _ _ rfl

/-- Claim C7 as amended: when the registry is enabled, ending an id or
name that resolves to no currently active block, or a malformed reference,
raises INTERNAL_ERROR synchronously; when disabled, end returns silently
without touching anything regardless of the reference. -/
theorem c7_unresolvable_end_throws (st : NsState) (now : ℚ) :
    (st.enabled = true →
      (∀ i : ℤ, aget st.activeById i = none → nsEnd st (.byId i) now = .error ())
      ∧ (∀ nm : String,
          aget st.activeByName nm = none → nsEnd st (.byName nm) now = .error ())
      ∧ nsEnd st .malformed now = .error ())
    ∧ (st.enabled = false → ∀ ref : BlockRef, nsEnd st ref now = .ok (st, none)) := by
  constructor
  · intro hen
    refine ⟨?_, ?_, ?_⟩
    · intro i hi
      apply nsEnd_unresolved st _ now hen
      simp [getBlock, hi]
    · intro nm hnm
      apply nsEnd_unresolved st _ now hen
      simp [getBlock, hnm]
    · exact nsEnd_unresolved st _ now hen rfl
  · intro hdis ref
    exact nsEnd_disabled st ref now hdis

/-- Witness for C7's amended theorem: unresolvable id 5 on a fresh enabled
profiler throws; unresolvable name on a disabled one silently returns. -/
theorem c7_witness :
    nsEnd (mkProfiler true 0) (.byId 5) 0 = .error ()
    ∧ nsEnd (mkProfiler false 0) (.byName "x") 0 = .ok (mkProfiler false 0, none) :=
  ⟨((c7_unresolvable_end_throws (mkProfiler true 0) 0).1 rfl).1 5 rfl,
   (c7_unresolvable_end_throws (mkProfiler false 0) 0).2 rfl (.byName "x")⟩

/-- Claim C1 counterexample: an enabled profiler wrapping a callable that
throws synchronously: the wrapped invocation propagates the original
exception, but zero end events fire for the block that was begun, where
the claim requires exactly one. -/
theorem c1_counterexample :
    (wrapInvoke (mkProfiler true 0)
        (CallBehavior.throws "boom" : CallBehavior String ℤ) "task" none 0 1).2.2 = 0
    ∧ (wrapInvoke (mkProfiler true 0)
        (CallBehavior.throws "boom" : CallBehavior String ℤ) "task" none 0 1).2.1
      = Except.error "boom" := by
  constructor <;> rfl

/-- Claim C1 as amended: when the wrapped callable fails — by throwing
synchronously or by returning a future that rejects — the original
failure propagates to the caller unchanged, but no end event fires for
the block that was begun, which remains registered in the active-by-id
index. -/
theorem c1_wrap_failure_no_end {ε β : Type} (st : NsState) (cb : CallBehavior ε β)
    (name : String) (wt : Option ℚ) (t1 t2 : ℚ) (e : ε)
    (hen : st.enabled = true) (hfail : callOutcome cb = .error e) :
    (wrapInvoke st cb name wt t1 t2).2.1 = .error e
    ∧ (wrapInvoke st cb name wt t1 t2).2.2 = 0
    ∧ aget (wrapInvoke st cb name wt t1 t2).1.activeById ((st.idCounter : ℤ) + 1)
        = some ⟨(st.idCounter : ℤ) + 1, name, wt, t1, true⟩ := by
  cases cb with
  | throws e2 =>
    have he : e2 = e := by simpa [callOutcome] using hfail
    subst he
    refine ⟨?_, ?_, ?_⟩ <;>
      simp [wrapInvoke, hen, nsBegin_enabled st name wt t1 hen, aget_aset_self]
  | returns v => simp [callOutcome] at hfail
  | future r =>
    cases r with
    | ok v => simp [callOutcome] at hfail
    | error e2 =>
      have he : e2 = e := by simpa [callOutcome] using hfail
      subst he
      refine ⟨?_, ?_, ?_⟩ <;>
        simp [wrapInvoke, hen, nsBegin_enabled st name wt t1 hen, aget_aset_self]

/-- Witness for C1's amended theorem: a wrapped callable whose returned
future rejects, on a fresh enabled profiler. -/
theorem c1_witness :
    (mkProfiler true 0).enabled = true
    ∧ callOutcome (CallBehavior.future (Except.error "fail") : CallBehavior String ℤ)
        = Except.error "fail"
    ∧ ((wrapInvoke (mkProfiler true 0)
          (CallBehavior.future (Except.error "fail") : CallBehavior String ℤ)
          "task" none 0 1).2.1 = Except.error "fail"
      ∧ (wrapInvoke (mkProfiler true 0)
          (CallBehavior.future (Except.error "fail") : CallBehavior String ℤ)
          "task" none 0 1).2.2 = 0
      ∧ aget (wrapInvoke (mkProfiler true 0)
          (CallBehavior.future (Except.error "fail") : CallBehavior String ℤ)
          "task" none 0 1).1.activeById (((mkProfiler true 0).idCounter : ℤ) + 1)
          = some ⟨((mkProfiler true 0).idCounter : ℤ) + 1, "task", none, 0, true⟩) :=
  ⟨rfl, rfl, c1_wrap_failure_no_end (mkProfiler true 0) _ "task" none 0 1 "fail" rfl rfl⟩

/-- Claim C8: with two blocks of the same name active, the by-name index
holds the most-recently-begun block (last write wins): ending by name
resolves to and ends the later block (its aggregate sample is measured
from the later begin time), while the earlier block stays in the
active-by-id index and can still be resolved and ended by its id. -/
theorem c8_byname_resolves_latest (st st1 st2 : NsState) (b1 b2 : Block)
    (x : String) (wt1 wt2 : Option ℚ) (t1 t2 t3 t4 : ℚ)
    (hen : st.enabled = true)
    (h1 : nsBegin st x wt1 t1 = (st1, b1))
    (h2 : nsBegin st1 x wt2 t2 = (st2, b2)) :
    getBlock st2 (.byName x) = .ok b2
    ∧ b2.id = b1.id + 1
    ∧ nsEndStats st2 (.byName x) t3
        = some (fold ((aget st.stats x).getD (freshStats false)) (t3 - t2))
    ∧ aget (nsEndState st2 (.byName x) t3).activeById b1.id = some b1
    ∧ getBlock (nsEndState st2 (.byName x) t3) (.byId b1.id) = .ok b1
    ∧ ∃ p, nsEnd (nsEndState st2 (.byName x) t3) (.byId b1.id) t4 = .ok p := by
  obtain ⟨hb1, hen1eq, hid1, hById1, hByName1, hstats1, -, -, -⟩ :=
    nsBegin_spec st st1 b1 x wt1 t1 hen h1
  have hen1 : st1.enabled = true := by rw [hen1eq]; exact hen
  obtain ⟨hb2, hen2eq, hid2, hById2, hByName2, hstats2, -, -, -⟩ :=
    nsBegin_spec st1 st2 b2 x wt2 t2 hen1 h2
  have hen2 : st2.enabled = true := by rw [hen2eq]; exact hen1
  have hb1id : b1.id = (st.idCounter : ℤ) + 1 := by rw [hb1]
  have hb2id : b2.id = (st1.idCounter : ℤ) + 1 := by rw [hb2]
  have hidne : b1.id ≠ b2.id := by
    rw [hb1id, hb2id, hid1]
    push_cast
    omega
  have hres : getBlock st2 (.byName x) = .ok b2 := by
    simp [getBlock, hByName2, aget_aset_self]
  have hids : b2.id = b1.id + 1 := by
    rw [hb1id, hb2id, hid1]
    push_cast
    ring
  have h1x : aget st1.stats x = some ((aget st.stats x).getD (freshStats false)) := by
    rw [hstats1]
    exact aget_aset_self _ _ _
  have hstatsx : aget st2.stats x = some ((aget st.stats x).getD (freshStats false)) := by
    rw [hstats2, aget_aset_self, h1x, Option.getD_some]
  have hlis2 : b2.listened = true := by rw [hb2]
  have hend := nsEnd_resolved st2 (.byName x) t3 b2 hen2 hres
  have hdir := blockEndDirect_listened st2 b2 t3 hlis2
  have hnamex : b2.name = x := by rw [hb2]
  have hstartt2 : b2.startedOn = t2 := by rw [hb2]
  have c3p : nsEndStats st2 (.byName x) t3
      = some (fold ((aget st.stats x).getD (freshStats false)) (t3 - t2)) := by
    simp only [nsEndStats, hend]
    rw [hdir]
    simp only [blockEndCore_stats, hnamex, hstartt2, hstatsx, Option.getD_some]
  have hById3 : (nsEndState st2 (.byName x) t3).activeById
      = adel st2.activeById b2.id := by
    simp only [nsEndState, hend]
    rw [hdir]
  have c4p : aget (nsEndState st2 (.byName x) t3).activeById b1.id = some b1 := by
    rw [hById3, aget_adel_ne _ _ _ hidne, hById2,
        aget_aset_ne _ _ _ _ hidne, hById1, aget_aset_self]
  have c5p : getBlock (nsEndState st2 (.byName x) t3) (.byId b1.id) = .ok b1 := by
    simp [getBlock, c4p]
  have hen3 : (nsEndState st2 (.byName x) t3).enabled = true := by
    simp only [nsEndState, hend]
    rw [hdir]
    exact hen2
  exact ⟨hres, hids, c3p, c4p, c5p, ⟨_, nsEnd_resolved _ _ t4 b1 hen3 c5p⟩⟩

/-- Witness for C8 on a fresh enabled profiler: begin x twice, end by
name, then end the survivor by id. -/
theorem c8_witness :
    (mkProfiler true 0).enabled = true
    ∧ nsBegin (mkProfiler true 0) "x" none 0
        = ((nsBegin (mkProfiler true 0) "x" none 0).1,
           (nsBegin (mkProfiler true 0) "x" none 0).2)
    ∧ nsBegin (nsBegin (mkProfiler true 0) "x" none 0).1 "x" none 1
        = ((nsBegin (nsBegin (mkProfiler true 0) "x" none 0).1 "x" none 1).1,
           (nsBegin (nsBegin (mkProfiler true 0) "x" none 0).1 "x" none 1).2)
    ∧ (getBlock (nsBegin (nsBegin (mkProfiler true 0) "x" none 0).1 "x" none 1).1
          (.byName "x")
        = .ok (nsBegin (nsBegin (mkProfiler true 0) "x" none 0).1 "x" none 1).2
      ∧ (nsBegin (nsBegin (mkProfiler true 0) "x" none 0).1 "x" none 1).2.id
          = (nsBegin (mkProfiler true 0) "x" none 0).2.id + 1
      ∧ nsEndStats (nsBegin (nsBegin (mkProfiler true 0) "x" none 0).1 "x" none 1).1
          (.byName "x") 2
          = some (fold ((aget (mkProfiler true 0).stats "x").getD (freshStats false))
              (2 - 1))
      ∧ aget (nsEndState
            (nsBegin (nsBegin (mkProfiler true 0) "x" none 0).1 "x" none 1).1
            (.byName "x") 2).activeById
            (nsBegin (mkProfiler true 0) "x" none 0).2.id
          = some (nsBegin (mkProfiler true 0) "x" none 0).2
      ∧ getBlock (nsEndState
            (nsBegin (nsBegin (mkProfiler true 0) "x" none 0).1 "x" none 1).1
            (.byName "x") 2)
            (.byId (nsBegin (mkProfiler true 0) "x" none 0).2.id)
          = .ok (nsBegin (mkProfiler true 0) "x" none 0).2
      ∧ ∃ p, nsEnd (nsEndState
            (nsBegin (nsBegin (mkProfiler true 0) "x" none 0).1 "x" none 1).1
            (.byName "x") 2)
            (.byId (nsBegin (mkProfiler true 0) "x" none 0).2.id) 3 = .ok p) :=
  ⟨rfl, rfl, rfl,
   c8_byname_resolves_latest (mkProfiler true 0)
     (nsBegin (mkProfiler true 0) "x" none 0).1
     (nsBegin (nsBegin (mkProfiler true 0) "x" none 0).1 "x" none 1).1
     (nsBegin (mkProfiler true 0) "x" none 0).2
     (nsBegin (nsBegin (mkProfiler true 0) "x" none 0).1 "x" none 1).2
     "x" none none 0 1 2 3 rfl rfl rfl⟩

/-- Claim C10: with two same-named blocks active, ending the earlier one
by id succeeds and unconditionally deletes the by-name entry for that
name — the entry currently pointing at the later, still-active block — so
name resolution then fails even though the later block is still in the
active-by-id index. -/
theorem c10_remove_clobbers_byname (st st1 st2 : NsState) (b1 b2 : Block)
    (x : String) (wt1 wt2 : Option ℚ) (t1 t2 t3 : ℚ)
    (hen : st.enabled = true)
    (h1 : nsBegin st x wt1 t1 = (st1, b1))
    (h2 : nsBegin st1 x wt2 t2 = (st2, b2)) :
    (∃ p, nsEnd st2 (.byId b1.id) t3 = .ok p)
    ∧ aget (nsEndState st2 (.byId b1.id) t3).activeByName x = none
    ∧ aget (nsEndState st2 (.byId b1.id) t3).activeById b2.id = some b2
    ∧ getBlock (nsEndState st2 (.byId b1.id) t3) (.byName x) = .error () := by
  obtain ⟨hb1, hen1eq, hid1, hById1, hByName1, hstats1, -, -, -⟩ :=
    nsBegin_spec st st1 b1 x wt1 t1 hen h1
  have hen1 : st1.enabled = true := by rw [hen1eq]; exact hen
  obtain ⟨hb2, hen2eq, hid2, hById2, hByName2, hstats2, -, -, -⟩ :=
    nsBegin_spec st1 st2 b2 x wt2 t2 hen1 h2
  have hen2 : st2.enabled = true := by rw [hen2eq]; exact hen1
  have hb1id : b1.id = (st.idCounter : ℤ) + 1 := by rw [hb1]
  have hb2id : b2.id = (st1.idCounter : ℤ) + 1 := by rw [hb2]
  have hidne : b2.id ≠ b1.id := by
    rw [hb1id, hb2id, hid1]
    push_cast
    omega
  have hres1 : getBlock st2 (.byId b1.id) = .ok b1 := by
    have : aget st2.activeById b1.id = some b1 := by
      rw [hById2, aget_aset_ne _ _ _ _ (Ne.symm hidne), hById1, aget_aset_self]
    simp [getBlock, this]
  have hlis1 : b1.listened = true := by rw [hb1]
  have hname1 : b1.name = x := by rw [hb1]
  have hend := nsEnd_resolved st2 (.byId b1.id) t3 b1 hen2 hres1
  have hdir := blockEndDirect_listened st2 b1 t3 hlis1
  have hByName3 : (nsEndState st2 (.byId b1.id) t3).activeByName
      = adel st2.activeByName x := by
    simp only [nsEndState, hend]
    rw [hdir, hname1]
  have c2p : aget (nsEndState st2 (.byId b1.id) t3).activeByName x = none := by
    rw [hByName3, aget_adel_self]
  have c3p : aget (nsEndState st2 (.byId b1.id) t3).activeById b2.id = some b2 := by
    have hById3 : (nsEndState st2 (.byId b1.id) t3).activeById
        = adel st2.activeById b1.id := by
      simp only [nsEndState, hend]
      rw [hdir]
    rw [hById3, aget_adel_ne _ _ _ hidne, hById2, aget_aset_self]
  have c4p : getBlock (nsEndState st2 (.byId b1.id) t3) (.byName x) = .error () := by
    simp [getBlock, c2p]
  exact ⟨⟨_, hend⟩, c2p, c3p, c4p⟩

/-- Witness for C10 on a fresh enabled profiler: begin x twice, end the
earlier block by its id. -/
theorem c10_witness :
    (mkProfiler true 0).enabled = true
    ∧ nsBegin (mkProfiler true 0) "x" none 0
        = ((nsBegin (mkProfiler true 0) "x" none 0).1,
           (nsBegin (mkProfiler true 0) "x" none 0).2)
    ∧ nsBegin (nsBegin (mkProfiler true 0) "x" none 0).1 "x" none 1
        = ((nsBegin (nsBegin (mkProfiler true 0) "x" none 0).1 "x" none 1).1,
           (nsBegin (nsBegin (mkProfiler true 0) "x" none 0).1 "x" none 1).2)
    ∧ ((∃ p, nsEnd (nsBegin (nsBegin (mkProfiler true 0) "x" none 0).1 "x" none 1).1
          (.byId (nsBegin (mkProfiler true 0) "x" none 0).2.id) 2 = .ok p)
      ∧ aget (nsEndState
            (nsBegin (nsBegin (mkProfiler true 0) "x" none 0).1 "x" none 1).1
            (.byId (nsBegin (mkProfiler true 0) "x" none 0).2.id) 2).activeByName "x"
          = none
      ∧ aget (nsEndState
            (nsBegin (nsBegin (mkProfiler true 0) "x" none 0).1 "x" none 1).1
            (.byId (nsBegin (mkProfiler true 0) "x" none 0).2.id) 2).activeById
            (nsBegin (nsBegin (mkProfiler true 0) "x" none 0).1 "x" none 1).2.id
          = some (nsBegin (nsBegin (mkProfiler true 0) "x" none 0).1 "x" none 1).2
      ∧ getBlock (nsEndState
            (nsBegin (nsBegin (mkProfiler true 0) "x" none 0).1 "x" none 1).1
            (.byId (nsBegin (mkProfiler true 0) "x" none 0).2.id) 2) (.byName "x")
          = .error ()) :=
  ⟨rfl, rfl, rfl,
   c10_remove_clobbers_byname (mkProfiler true 0)
     (nsBegin (mkProfiler true 0) "x" none 0).1
     (nsBegin (nsBegin (mkProfiler true 0) "x" none 0).1 "x" none 1).1
     (nsBegin (mkProfiler true 0) "x" none 0).2
     (nsBegin (nsBegin (mkProfiler true 0) "x" none 0).1 "x" none 1).2
     "x" none none 0 1 2 rfl rfl rfl⟩

end Simprof
